import Mathlib

/-!
Verification of the mc-grid-api-node-mongo request-authentication core:
signature derivation/verification, replay window, rate limiter, registry
upsert and bulk lookup, and the request gate orchestration.

The definitions below are shallow embeddings of the JavaScript sources:
  * `src/unnamed/part_000` (the hardened HUD API: `sigSHA1`, `withinWindow`,
    the per-IP rate limiter, `/api/register`, `/api/scan`);
  * `src/server.cjs` (the envelope variant: `verifySig` with its ordered
    candidate-encoding list).
JavaScript strings are modelled as Lean `String`s (operations are spelled out
on the underlying character lists), machine integers as `Nat`/`Int` with
explicit reduction mod 2^32 where the digest arithmetic overflows, and JS
numbers (which can be non-integral or NaN) as `Option ℚ` at the one place it
matters, the timestamp claim after `Number(...)` coercion.
-/

namespace MCGrid

/-- Whitespace stripped by JS `String.prototype.trim` (ASCII subset). -/
def isJsWS (c : Char) : Bool :=
  c = ' ' || c = '\t' || c = '\n' || c = '\r' || c = '\x0b' || c = '\x0c'

/-- JS `String.prototype.toLowerCase` on a single character (ASCII range). -/
def jsToLowerChar (c : Char) : Char :=
  if 'A' ≤ c ∧ c ≤ 'Z' then Char.ofNat (c.toNat + 32) else c

/-- JS `String.prototype.toLowerCase` (ASCII range). -/
def jsToLower (s : String) : String := ⟨s.data.map jsToLowerChar⟩

/-- JS `String.prototype.trim` on a character list: strip leading and trailing
whitespace. -/
def jsTrimL (l : List Char) : List Char :=
  ((l.dropWhile isJsWS).reverse.dropWhile isJsWS).reverse

/-- JS `String.prototype.trim`. -/
def jsTrim (s : String) : String := ⟨jsTrimL s.data⟩

/-! ## SHA-1 (the `crypto.createHash('sha1')` collaborator)

`crypto` is a Node builtin; the handlers hash the UTF-8 bytes of
`secret + '|' + raw` and hex-encode the digest.  The implementation below is
standard SHA-1 over byte lists, executable so that concrete signatures can be
evaluated inside proofs. -/

/-- UTF-8 encoding of one character. -/
def utf8Char (c : Char) : List Nat :=
  let n := c.toNat
  if n < 128 then [n]
  else if n < 2048 then [192 + n / 64, 128 + n % 64]
  else if n < 65536 then [224 + n / 4096, 128 + n / 64 % 64, 128 + n % 64]
  else [240 + n / 262144, 128 + n / 4096 % 64, 128 + n / 64 % 64, 128 + n % 64]

/-- UTF-8 bytes of a string (Node's default `utf8` update encoding). -/
def utf8Bytes (s : String) : List Nat := (s.data.map utf8Char).flatten

/-- Truncation to a 32-bit word. -/
def w32 (x : Nat) : Nat := x % 4294967296

/-- 32-bit left rotation. -/
def rotl (n x : Nat) : Nat := w32 ((x <<< n) ||| (x >>> (32 - n)))

/-- Big-endian 64-bit encoding of the message bit length. -/
def be64 (n : Nat) : List Nat :=
  [n >>> 56 % 256, n >>> 48 % 256, n >>> 40 % 256, n >>> 32 % 256,
   n >>> 24 % 256, n >>> 16 % 256, n >>> 8 % 256, n % 256]

/-- SHA-1 message padding: `0x80`, zeros to 56 mod 64, then the bit length. -/
def sha1Pad (msg : List Nat) : List Nat :=
  msg ++ 128 :: (List.replicate ((119 - msg.length % 64) % 64) 0 ++ be64 (msg.length * 8))

/-- Split into 64-byte blocks (fuel-indexed for structural recursion). -/
def toBlocks : Nat → List Nat → List (List Nat)
  | 0, _ => []
  | _, [] => []
  | f + 1, l => l.take 64 :: toBlocks f (l.drop 64)

/-- Assemble big-endian 32-bit words from bytes. -/
def toWords : Nat → List Nat → List Nat
  | 0, _ => []
  | _, [] => []
  | f + 1, b0 :: rest =>
    match rest with
    | b1 :: b2 :: b3 :: r => ((b0 <<< 24) ||| (b1 <<< 16) ||| (b2 <<< 8) ||| b3) :: toWords f r
    | _ => []

/-- Message-schedule expansion, newest word first. -/
def expandRev : Nat → List Nat → List Nat
  | 0, rev => rev
  | f + 1, rev =>
    expandRev f (rotl 1 (rev.getD 2 0 ^^^ rev.getD 7 0 ^^^ rev.getD 13 0 ^^^ rev.getD 15 0) :: rev)

/-- The five 32-bit chaining words of SHA-1. -/
structure Sha1State where
  a : Nat
  b : Nat
  c : Nat
  d : Nat
  e : Nat
  deriving DecidableEq

/-- The SHA-1 round function for round `t`. -/
def sha1F (t b c d : Nat) : Nat :=
  if t < 20 then (b &&& c) ||| ((4294967295 ^^^ b) &&& d)
  else if t < 40 then b ^^^ c ^^^ d
  else if t < 60 then (b &&& c) ||| (b &&& d) ||| (c &&& d)
  else b ^^^ c ^^^ d

/-- The SHA-1 round constant for round `t`. -/
def sha1K (t : Nat) : Nat :=
  if t < 20 then 1518500249
  else if t < 40 then 1859775393
  else if t < 60 then 2400959708
  else 3395469782

/-- One SHA-1 round: `tw` is the (round index, schedule word) pair. -/
def sha1Round (st : Sha1State) (tw : Nat × Nat) : Sha1State :=
  let temp := w32 (rotl 5 st.a + sha1F tw.1 st.b st.c st.d + st.e + sha1K tw.1 + tw.2)
  ⟨temp, st.a, rotl 30 st.b, st.c, st.d⟩

/-- Compress one 64-byte block into the chaining state. -/
def sha1Block (st : Sha1State) (block : List Nat) : Sha1State :=
  let ws := (expandRev 64 (toWords 16 block).reverse).reverse
  let f := ws.enum.foldl sha1Round st
  ⟨w32 (st.a + f.a), w32 (st.b + f.b), w32 (st.c + f.c), w32 (st.d + f.d), w32 (st.e + f.e)⟩

/-- The SHA-1 initialization vector. -/
def sha1Init : Sha1State := ⟨1732584193, 4023233417, 2562383102, 271733878, 3285377520⟩

/-- SHA-1 of a byte list, as the final chaining state. -/
def sha1Words (msg : List Nat) : Sha1State :=
  (toBlocks (msg.length + 9) (sha1Pad msg)).foldl sha1Block sha1Init

/-- The sixteen lowercase hex digits. -/
def hexChars : List Char := "0123456789abcdef".data

/-- Lowercase hex digit for a nibble. -/
def hexDigit (n : Nat) : Char := hexChars.getD n '0'

/-- Eight lowercase hex characters of a 32-bit word, most significant first. -/
def toHex8 (w : Nat) : List Char :=
  [hexDigit ((w >>> 28) &&& 15), hexDigit ((w >>> 24) &&& 15), hexDigit ((w >>> 20) &&& 15),
   hexDigit ((w >>> 16) &&& 15), hexDigit ((w >>> 12) &&& 15), hexDigit ((w >>> 8) &&& 15),
   hexDigit ((w >>> 4) &&& 15), hexDigit (w &&& 15)]

/-- The 40-character lowercase hex SHA-1 digest of a byte list. -/
def sha1HexL (msg : List Nat) : List Char :=
  let st := sha1Words msg
  toHex8 st.a ++ (toHex8 st.b ++ (toHex8 st.c ++ (toHex8 st.d ++ toHex8 st.e)))

/-- Node's `crypto.createHash('sha1').update(s, 'utf8').digest('hex')`. -/
def sha1Hex (s : String) : String := ⟨sha1HexL (utf8Bytes s)⟩

/-- `sigSHA1` from `src/unnamed/part_000` lines 52-53: first 8 hex characters of
`sha1(secret + '|' + raw)`. -/
def sigSHA1 (secret raw : String) : String :=
  ⟨(sha1HexL (utf8Bytes (secret ++ "|" ++ raw))).take 8⟩

/-! ## JSON (the platform `JSON.parse` / `JSON.stringify` collaborator) -/

/-- Modelled from the spec: JSON values as handled by the platform
`JSON.parse`/`JSON.stringify`, an external collaborator of the repository
("parse as structured data, re-emit with deterministic key order and minimal
whitespace").  Object key order is JS insertion order, kept as list order;
numbers are restricted to the integer numerals the clients send. -/
inductive JsVal where
  | null
  | bool (b : Bool)
  | num (n : Int)
  | str (s : List Char)
  | arr (xs : List JsVal)
  | obj (kvs : List (List Char × JsVal))

/-- JSON insignificant whitespace. -/
def jsonWS (c : Char) : Bool := c = ' ' || c = '\t' || c = '\n' || c = '\r'

/-- Skip JSON whitespace. -/
def skipWs (l : List Char) : List Char := l.dropWhile jsonWS

/-- Decoding of a JSON string escape character. -/
def escDecode (c : Char) : Option Char :=
  if c = '"' then some '"'
  else if c = '\\' then some '\\'
  else if c = '/' then some '/'
  else if c = 'n' then some '\n'
  else if c = 't' then some '\t'
  else if c = 'r' then some '\r'
  else if c = 'b' then some '\x08'
  else if c = 'f' then some '\x0c'
  else none

/-- Parse the body of a JSON string after the opening quote; returns the
decoded characters and the remaining input. -/
def parseStrBody : List Char → Option (List Char × List Char)
  | [] => none
  | '"' :: r => some ([], r)
  | '\\' :: e :: r =>
    match escDecode e with
    | some c => (parseStrBody r).map (fun p => (c :: p.1, p.2))
    | none => none
  | c :: r => (parseStrBody r).map (fun p => (c :: p.1, p.2))

/-- Numeric value of a decimal digit character. -/
def digitVal (c : Char) : Option Nat :=
  if '0' ≤ c ∧ c ≤ '9' then some (c.toNat - 48) else none

/-- Split a leading run of decimal digits off the input. -/
def takeDigits : List Char → (List Nat × List Char)
  | [] => ([], [])
  | c :: r =>
    match digitVal c with
    | some d => let p := takeDigits r; (d :: p.1, p.2)
    | none => ([], c :: r)

/-- Decimal value of a digit list. -/
def digitsToNat (l : List Nat) : Nat := l.foldl (fun a d => a * 10 + d) 0

/-- Parse a JSON integer numeral. -/
def parseNum : List Char → Option (Int × List Char)
  | '-' :: r =>
    let p := takeDigits r
    if p.1 = [] then none else some (-(digitsToNat p.1 : Int), p.2)
  | l =>
    let p := takeDigits l
    if p.1 = [] then none else some ((digitsToNat p.1 : Int), p.2)

/-- A pending context of the JSON parser: an array collecting elements, or an
object waiting for the value of `key`. -/
inductive JFrame where
  | arr (acc : List JsVal)
  | objVal (acc : List (List Char × JsVal)) (key : List Char)

/-- Control state of the JSON parser machine. -/
inductive JState where
  | pval (l : List Char)
  | ret (v : JsVal) (l : List Char)
  | arrStart (l : List Char)
  | arrSep (acc : List JsVal) (l : List Char)
  | objStart (l : List Char)
  | objSep (acc : List (List Char × JsVal)) (l : List Char)

/-- Parse an object key string followed by a colon. -/
def parseKeyColon (l : List Char) : Option (List Char × List Char) :=
  match skipWs l with
  | '"' :: r =>
    match parseStrBody r with
    | some (k, r2) =>
      match skipWs r2 with
      | ':' :: r3 => some (k, r3)
      | _ => none
    | none => none
  | _ => none

/-- The JSON parser as a fuel-indexed machine over an explicit context stack. -/
def jrun : Nat → List JFrame → JState → Option (JsVal × List Char)
  | 0, _, _ => none
  | f + 1, stk, st =>
    match st with
    | .pval l =>
      match skipWs l with
      | [] => none
      | '"' :: r =>
        match parseStrBody r with
        | some (s, r2) => jrun f stk (.ret (.str s) r2)
        | none => none
      | '[' :: r => jrun f stk (.arrStart r)
      | '{' :: r => jrun f stk (.objStart r)
      | 't' :: 'r' :: 'u' :: 'e' :: r => jrun f stk (.ret (.bool true) r)
      | 'f' :: 'a' :: 'l' :: 's' :: 'e' :: r => jrun f stk (.ret (.bool false) r)
      | 'n' :: 'u' :: 'l' :: 'l' :: r => jrun f stk (.ret .null r)
      | l2 =>
        match parseNum l2 with
        | some (n, r) => jrun f stk (.ret (.num n) r)
        | none => none
    | .ret v l =>
      match stk with
      | [] => some (v, l)
      | .arr acc :: stk2 => jrun f stk2 (.arrSep (v :: acc) l)
      | .objVal acc k :: stk2 => jrun f stk2 (.objSep ((k, v) :: acc) l)
    | .arrStart l =>
      match skipWs l with
      | ']' :: r => jrun f stk (.ret (.arr []) r)
      | l2 => jrun f (.arr [] :: stk) (.pval l2)
    | .arrSep acc l =>
      match skipWs l with
      | ',' :: r => jrun f (.arr acc :: stk) (.pval r)
      | ']' :: r => jrun f stk (.ret (.arr acc.reverse) r)
      | _ => none
    | .objStart l =>
      match skipWs l with
      | '}' :: r => jrun f stk (.ret (.obj []) r)
      | l2 =>
        match parseKeyColon l2 with
        | some (k, r) => jrun f (.objVal [] k :: stk) (.pval r)
        | none => none
    | .objSep acc l =>
      match skipWs l with
      | ',' :: r =>
        match parseKeyColon r with
        | some (k, r2) => jrun f (.objVal acc k :: stk) (.pval r2)
        | none => none
      | '}' :: r => jrun f stk (.ret (.obj acc.reverse) r)
      | _ => none

/-- Modelled from the spec: platform `JSON.parse` (integer-numeral subset, no
unicode escapes), rejecting trailing non-whitespace. -/
def parseJson (s : String) : Option JsVal :=
  match jrun (8 * s.data.length + 8) [] (.pval s.data) with
  | some (v, rest) => if skipWs rest = [] then some v else none
  | none => none

/-- Encoding of one character inside a JSON string literal. -/
def escEncode (c : Char) : List Char :=
  if c = '"' then ['\\', '"']
  else if c = '\\' then ['\\', '\\']
  else if c = '\n' then ['\\', 'n']
  else if c = '\t' then ['\\', 't']
  else if c = '\r' then ['\\', 'r']
  else if c = '\x08' then ['\\', 'b']
  else if c = '\x0c' then ['\\', 'f']
  else [c]

/-- A JSON string literal with quotes and escapes. -/
def quoteStr (s : List Char) : List Char := '"' :: ((s.map escEncode).flatten ++ ['"'])

/-- Decimal numeral of an integer, as JS prints integers. -/
def intChars (n : Int) : List Char := (toString n).data

/-- Fuel-indexed serializer body of `JSON.stringify`. -/
def stringifyF : Nat → JsVal → List Char
  | 0, _ => []
  | f + 1, v =>
    match v with
    | .null => "null".data
    | .bool true => "true".data
    | .bool false => "false".data
    | .num n => intChars n
    | .str s => quoteStr s
    | .arr xs => '[' :: (List.intercalate [','] (xs.map (stringifyF f)) ++ [']'])
    | .obj kvs =>
      '{' :: (List.intercalate [','] (kvs.map (fun kv => quoteStr kv.1 ++ ':' :: stringifyF f kv.2)) ++ ['}'])

/-- Modelled from the spec: platform `JSON.stringify` — minimal whitespace,
keys in insertion order.  The fuel must exceed the nesting depth of `v`. -/
def stringifyJsonB (fuel : Nat) (v : JsVal) : String := ⟨stringifyF fuel v⟩

/-- The canonical re-serialization `JSON.stringify(JSON.parse(payload))` of
`verifySig`.  A value parsed from `payload` nests at most `payload.length`
levels deep (each level consumes a bracket), so that fuel suffices. -/
def canonicalOf (payload : String) : Option String :=
  (parseJson payload).map (stringifyJsonB (payload.data.length + 1))

/-! ## The `verifySig` candidate-encoding engine (`src/server.cjs`) -/

/-- JS `String.prototype.replace` with a global literal pattern:
non-overlapping left-to-right replacement of `pat` by `rep` (fuel-indexed on
the input length). -/
def replaceAllF : Nat → List Char → List Char → List Char → List Char
  | 0, _, _, l => l
  | _, _, _, [] => []
  | f + 1, pat, rep, c :: rest =>
    if pat ≠ [] ∧ pat.isPrefixOf (c :: rest) then
      rep ++ replaceAllF f pat rep ((c :: rest).drop pat.length)
    else
      c :: replaceAllF f pat rep rest

/-- JS `payload.replace(/pat/g, rep)` for a literal pattern. -/
def jsReplace (pat rep s : String) : String :=
  ⟨replaceAllF (s.data.length + 1) pat.data rep.data s.data⟩

/-- The ordered candidate-encoding list built in `verifySig`
(`src/server.cjs` lines 45-60): the exact payload first, then its canonical
JSON re-serialization when it parses, then escaped-slash normalization, the
two line-ending normalizations, and the two trailing-newline variants. -/
def candidates (payload : String) : List String :=
  payload ::
    ((match canonicalOf payload with
      | some c => [c]
      | none => [])
    ++ [jsReplace "\\/" "/" payload,
        jsReplace "\r\n" "\n" payload,
        jsReplace "\n" "\r\n" payload,
        payload ++ "\n",
        payload ++ "\r\n"])

/-- The digest test applied to one candidate in the `verifySig` loop:
`sha1(SECRET + '|' + cand).toLowerCase() === sigLower`. -/
def candMatches (secret sigLower cand : String) : Bool :=
  jsToLower (sha1Hex (secret ++ "|" ++ cand)) == sigLower

/-- The `for (const cand of candidates)` loop of `verifySig`: return the first
candidate whose digest matches the asserted signature. -/
def tryCands (secret sigLower : String) : List String → Option String
  | [] => none
  | c :: rest => if candMatches secret sigLower c then some c else tryCands secret sigLower rest

/-- Outcome of `verifySig` in `src/server.cjs`: the parsed data of the matching
candidate (stored in `req.data` and passed to the route), the 400 `Bad JSON`
response, or the 401 `Bad sig` response. -/
inductive VerifyResult where
  | ok (data : JsVal) (cand : String)
  | badJson
  | badSig

/-- `verifySig` from `src/server.cjs` lines 43-87, from the point where
`payload` and `sig` are strings: lower-case and trim the asserted signature,
try the candidate encodings in order, and on the first digest match parse that
candidate as the trusted payload. -/
def verifySig (secret payload sig : String) : VerifyResult :=
  let sigLower := jsToLower (jsTrim sig)
  match tryCands secret sigLower (candidates payload) with
  | some c =>
    match parseJson c with
    | some d => .ok d c
    | none => .badJson
  | none => .badSig

/-! ## Clock/window guard (`withinWindow`, `src/unnamed/part_000` lines 55-58) -/

/-- A JS number after `Number(...)` coercion: `none` when the coercion produced
NaN or an infinity, so that `Number.isFinite` fails; otherwise the finite
value (JS numbers need not be integral, hence `ℚ`). -/
abbrev JsNum := Option ℚ

/-- `withinWindow` from `src/unnamed/part_000` lines 55-58:
`Number.isFinite(ts) && Math.abs(now - ts) <= TS_DRIFT_SEC`. -/
def withinWindow (nowS : Int) (drift : ℚ) (ts : JsNum) : Bool :=
  match ts with
  | none => false
  | some t => |(nowS : ℚ) - t| ≤ drift

/-! ## Rate limiter (`src/unnamed/part_000` lines 21-30) -/

/-- A per-IP rate bucket `{ count, last }`. -/
structure Bucket where
  count : Nat
  last : Int
  deriving DecidableEq

/-- One pass of the rate-limiter middleware for a single source, acting on that
source's `hits` entry (`none` when the source was never seen): reset the
window when more than 60 000 ms have passed, pre-increment the counter, admit
iff the counter does not exceed the limit.  A bucket taken from the map is
mutated in place (so the reset and `++h.count` persist even when the request
is then rejected); a freshly created bucket is only stored by the `hits.set`
reached on admission. -/
def rateStep (limit : Nat) (nowMs : Int) : Option Bucket → Bool × Option Bucket
  | some h =>
    let h1 : Bucket := if nowMs - h.last > 60000 then ⟨0, nowMs⟩ else h
    let c := h1.count + 1
    (c ≤ limit, some ⟨c, h1.last⟩)
  | none =>
    if 1 ≤ limit then (true, some ⟨1, nowMs⟩) else (false, none)

/-- Decisions of successive requests from one source: the admitted bit per
request, threading the stored bucket. -/
def rateRun (limit : Nat) : Option Bucket → List Int → List Bool
  | _, [] => []
  | b, t :: ts =>
    let r := rateStep limit t b
    r.1 :: rateRun limit r.2 ts

/-! ## Registry (`src/unnamed/part_000` lines 60-69 and 95-108) -/

/-- A registry record `{ name, mc, rank, first_seen, last_seen }`. -/
structure RegRec where
  name : String
  mc : String
  rank : String
  first_seen : Int
  last_seen : Int
  deriving DecidableEq

/-- `DEFAULT_MC` from `src/unnamed/part_000` line 63. -/
def DEFAULT_MC : String := "MC Grid Wide"

/-- `DEFAULT_RANK` from `src/unnamed/part_000` line 64. -/
def DEFAULT_RANK : String := "Prospect"

/-- `lookupRankFor`, the pluggable classification lookup (the repository stub
returns the default rank for every id). -/
def lookupRankFor (_id : String) : String := DEFAULT_RANK

/-- The in-memory registry `Map`, as a partial map over avatar ids. -/
def Registry := String → Option RegRec

/-- The record stored for `id` by the register handler: if present, refresh
`last_seen` and the display name (JS `name || existing.name`, so an empty name
keeps the stored one); if absent, create with `first_seen = last_seen = nowS`,
the default MC and the classification lookup (`name || '(unknown)'`). -/
def upsertRec (reg : Registry) (id name : String) (nowS : Int) : RegRec :=
  match reg id with
  | some existing =>
    { existing with name := if name = "" then existing.name else name, last_seen := nowS }
  | none =>
    { name := if name = "" then "(unknown)" else name
      mc := DEFAULT_MC
      rank := lookupRankFor id
      first_seen := nowS
      last_seen := nowS }

/-- `registry.set(id, ...)` with the upserted record. -/
def registryUpsert (reg : Registry) (id name : String) (nowS : Int) : Registry :=
  fun k => if k = id then some (upsertRec reg id name nowS) else reg k

/-! ## Scan lookup (`src/unnamed/part_000` lines 119-147) -/

/-- One element of the `/api/scan` results array. -/
structure ScanOut where
  id : String
  who : String
  mc : String
  rank : String
  age_days : Int
  deriving DecidableEq

/-- The per-id lookup of `/api/scan`: known ids return the stored record with
the age in whole days since `first_seen` (clamped at 0; JS
`rec.first_seen || nowS` substitutes `nowS` when `first_seen` is 0); unknown
ids return the fixed `(unknown)` sentinel with age 0. -/
def scanOne (reg : Registry) (nowS : Int) (id : String) : ScanOut :=
  match reg id with
  | none => ⟨id, "(unknown)", "(unknown)", "(unknown)", 0⟩
  | some r =>
    let fs := if r.first_seen = 0 then nowS else r.first_seen
    ⟨id, r.name, r.mc, r.rank, max 0 (Int.fdiv (nowS - fs) 86400)⟩

/-- The slice bound of `/api/scan` (`ids.slice(0, 20)`, line 134). -/
def SCAN_CAP : Nat := 20

/-- The scan results: non-arrays normalize to `[]`
(`Array.isArray(d.targets) ? d.targets : []`), the list is capped by `cap`,
and each retained id is looked up in input order. -/
def scanResults (reg : Registry) (nowS : Int) (cap : Nat) (targets : Option (List String)) :
    List ScanOut :=
  ((targets.getD []).take cap).map (scanOne reg nowS)

/-! ## Request gate (`/api/register` and `/api/scan` of `src/unnamed/part_000`) -/

/-- A response of the part_000 endpoints.  `badSig` carries the `recvSig` and
`expected` fields of the register handler's 401 body (line 85); the scan
handler's 401 body carries no signature fields (line 125), hence
`badSigPlain`. -/
inductive Response where
  | tooMany
  | missingSig
  | badSig (recvSig expected : String)
  | badSigPlain
  | staleTs
  | okRegister (who whereR rank atIso : String)
  | okScan (results : List ScanOut)
  | serverError
  deriving DecidableEq

/-- The outcome of one full request: the response plus the rate-limiter entry
of the source and the registry afterwards. -/
structure GateResult where
  resp : Response
  bucket : Option Bucket
  registry : Registry

/-- Whether a response is one of the error rejections (not a 200). -/
def isErrorResp : Response → Bool
  | .okRegister _ _ _ _ => false
  | .okScan _ => false
  | _ => true

/-- Blank the signature-derived fields of a response, for statements comparing
runs that differ only in the secret. -/
def eraseSigFields : Response → Response
  | .badSig _ _ => .badSig "" ""
  | r => r

/-- The `/api/register` pipeline of `src/unnamed/part_000` (middleware lines
22-30, handler lines 79-116): per-IP rate limit, then signature check of the
exact raw body, then the replay window, then the registry upsert; each failing
check short-circuits.  `gotRaw` is `(req.get('X-Sig') || req.query.sig || '')`,
`ts` is `Number(d.timestamp)`, `id`/`name` are the string-coerced
`avatar_id`/`avatar_name`, `nowIso` is `new Date().toISOString()`. -/
def processRegister (limit : Nat) (nowMs : Int) (b : Option Bucket) (reg : Registry)
    (secret raw gotRaw : String) (ts : JsNum) (drift : ℚ) (id name region nowIso : String)
    (nowS : Int) : GateResult :=
  let rl := rateStep limit nowMs b
  if rl.1 = false then ⟨.tooMany, rl.2, reg⟩
  else
    let got := jsToLower (jsTrim gotRaw)
    let want := sigSHA1 secret raw
    if got = "" then ⟨.missingSig, rl.2, reg⟩
    else if got ≠ want then ⟨.badSig got want, rl.2, reg⟩
    else if withinWindow nowS drift ts = false then ⟨.staleTs, rl.2, reg⟩
    else
      let reg2 := registryUpsert reg id name nowS
      match reg2 id with
      | some r => ⟨.okRegister r.name region r.rank nowIso, rl.2, reg2⟩
      | none => ⟨.serverError, rl.2, reg2⟩

/-- The `/api/scan` pipeline of `src/unnamed/part_000` (lines 119-147): the
same gate order, with the bulk lookup as business operation; the registry is
only read. -/
def processScan (limit : Nat) (nowMs : Int) (b : Option Bucket) (reg : Registry)
    (secret raw gotRaw : String) (ts : JsNum) (drift : ℚ) (targets : Option (List String))
    (nowS : Int) : GateResult :=
  let rl := rateStep limit nowMs b
  if rl.1 = false then ⟨.tooMany, rl.2, reg⟩
  else
    let got := jsToLower (jsTrim gotRaw)
    let want := sigSHA1 secret raw
    if got = "" then ⟨.missingSig, rl.2, reg⟩
    else if got ≠ want then ⟨.badSigPlain, rl.2, reg⟩
    else if withinWindow nowS drift ts = false then ⟨.staleTs, rl.2, reg⟩
    else ⟨.okScan (scanResults reg nowS SCAN_CAP targets), rl.2, reg⟩

/-! ## Digest character lemmas -/

/-- Every character a nibble encodes to is a lowercase hex digit. -/
theorem hexDigit_mem (n : Nat) : hexDigit n ∈ hexChars := by
  unfold hexDigit
  simp only [List.getD]
  rcases h : hexChars.get? n with _ | c
  · decide
  · exact List.get?_mem h

/-- All characters of `toHex8` are lowercase hex digits. -/
theorem toHex8_mem (w : Nat) (c : Char) (h : c ∈ toHex8 w) : c ∈ hexChars := by
  unfold toHex8 at h
  simp only [List.mem_cons, List.mem_singleton, List.not_mem_nil, or_false] at h
  rcases h with h | h | h | h | h | h | h | h <;> exact h ▸ hexDigit_mem _

/-- All characters of a hex-encoded SHA-1 digest are lowercase hex digits. -/
theorem sha1HexL_mem (msg : List Nat) (c : Char) (h : c ∈ sha1HexL msg) : c ∈ hexChars := by
  unfold sha1HexL at h
  simp only [List.mem_append] at h
  rcases h with h | h | h | h | h <;> exact toHex8_mem _ _ h

/-- Lowercase hex digits are untouched by `toLowerCase`. -/
theorem jsToLowerChar_hex (c : Char) (h : c ∈ hexChars) : jsToLowerChar c = c := by
  fin_cases h <;> decide

/-- Lowercase hex digits are not whitespace. -/
theorem isJsWS_hex (c : Char) (h : c ∈ hexChars) : isJsWS c = false := by
  fin_cases h <;> decide

/-- A predicate false on every element leaves `dropWhile` the identity. -/
theorem dropWhile_eq_self (p : Char → Bool) (l : List Char) (h : ∀ c ∈ l, p c = false) :
    l.dropWhile p = l := by
  cases l with
  | nil => rfl
  | cons c r => simp [List.dropWhile_cons, h c (List.mem_cons_self c r)]

/-- `jsTrimL` is the identity on lists without whitespace. -/
theorem jsTrimL_eq_self (l : List Char) (h : ∀ c ∈ l, isJsWS c = false) : jsTrimL l = l := by
  unfold jsTrimL
  rw [dropWhile_eq_self _ _ h]
  rw [dropWhile_eq_self _ _ (by intro c hc; exact h c (List.mem_reverse.mp hc))]
  exact List.reverse_reverse l

/-- Mapping `toLowerCase` over an all-hex list is the identity. -/
theorem map_toLower_eq_self (l : List Char) (h : ∀ c ∈ l, c ∈ hexChars) :
    l.map jsToLowerChar = l := by
  induction l with
  | nil => rfl
  | cons c r ih =>
    simp only [List.map_cons]
    rw [jsToLowerChar_hex c (h c (List.mem_cons_self c r)),
      ih (fun x hx => h x (List.mem_cons_of_mem c hx))]

/-- Characters of the truncated signature are lowercase hex digits. -/
theorem sigSHA1_all_hex (secret raw : String) :
    ∀ c ∈ (sigSHA1 secret raw).data, c ∈ hexChars := by
  intro c hc
  exact sha1HexL_mem _ c (List.mem_of_mem_take hc)

/-- `trim` leaves the truncated signature unchanged. -/
theorem jsTrim_sigSHA1 (secret raw : String) : jsTrim (sigSHA1 secret raw) = sigSHA1 secret raw := by
  unfold jsTrim
  congr 1
  exact jsTrimL_eq_self _ (fun c hc => isJsWS_hex c (sigSHA1_all_hex secret raw c hc))

/-- `toLowerCase` leaves the truncated signature unchanged. -/
theorem jsToLower_sigSHA1 (secret raw : String) :
    jsToLower (sigSHA1 secret raw) = sigSHA1 secret raw := by
  unfold jsToLower
  congr 1
  exact map_toLower_eq_self _ (sigSHA1_all_hex secret raw)

/-- Each `toHex8` block has eight characters. -/
theorem toHex8_length (w : Nat) : (toHex8 w).length = 8 := rfl

/-- The full hex digest has 40 characters. -/
theorem sha1HexL_length (msg : List Nat) : (sha1HexL msg).length = 40 := by
  unfold sha1HexL
  simp [toHex8_length]

/-- The truncated signature has exactly 8 characters. -/
theorem sigSHA1_length (secret raw : String) : (sigSHA1 secret raw).length = 8 := by
  show ((sha1HexL (utf8Bytes (secret ++ "|" ++ raw))).take 8).length = 8
  rw [List.length_take, sha1HexL_length]
  decide

/-- The truncated signature is never the empty string. -/
theorem sigSHA1_ne_empty (secret raw : String) : sigSHA1 secret raw ≠ "" := by
  intro h
  have := sigSHA1_length secret raw
  rw [h] at this
  exact absurd this (by decide)

/-- All characters of the full hex digest are lowercase hex digits. -/
theorem sha1Hex_all_hex (s : String) : ∀ c ∈ (sha1Hex s).data, c ∈ hexChars :=
  fun c hc => sha1HexL_mem _ c hc

/-- `trim` leaves the full hex digest unchanged. -/
theorem jsTrim_sha1Hex (s : String) : jsTrim (sha1Hex s) = sha1Hex s := by
  unfold jsTrim
  congr 1
  exact jsTrimL_eq_self _ (fun c hc => isJsWS_hex c (sha1Hex_all_hex s c hc))

/-- `toLowerCase` leaves the full hex digest unchanged. -/
theorem jsToLower_sha1Hex (s : String) : jsToLower (sha1Hex s) = sha1Hex s := by
  unfold jsToLower
  congr 1
  exact map_toLower_eq_self _ (sha1Hex_all_hex s)

/-! ## Candidate-loop lemmas -/

/-- A successful candidate scan yields the first matching candidate: the list
splits into a non-matching prefix, the match, and the rest. -/
theorem tryCands_eq_some (secret sigLower : String) {l : List String} {c : String}
    (h : tryCands secret sigLower l = some c) :
    ∃ pre suf, l = pre ++ c :: suf ∧ (∀ x ∈ pre, candMatches secret sigLower x = false) ∧
      candMatches secret sigLower c = true := by
  induction l with
  | nil => exact absurd h (by simp [tryCands])
  | cons a rest ih =>
    rw [tryCands] at h
    by_cases hm : candMatches secret sigLower a = true
    · rw [if_pos hm] at h
      obtain rfl : a = c := by injection h
      exact ⟨[], rest, rfl, by simp, hm⟩
    · rw [if_neg hm] at h
      obtain ⟨pre, suf, h1, h2, h3⟩ := ih h
      refine ⟨a :: pre, suf, by rw [h1]; rfl, ?_, h3⟩
      intro x hx
      rcases List.mem_cons.mp hx with rfl | hx2
      · simpa using hm
      · exact h2 x hx2

/-- A failed candidate scan means no candidate matched. -/
theorem tryCands_eq_none (secret sigLower : String) {l : List String}
    (h : tryCands secret sigLower l = none) : ∀ x ∈ l, candMatches secret sigLower x = false := by
  induction l with
  | nil => intro x hx; cases hx
  | cons a rest ih =>
    rw [tryCands] at h
    by_cases hm : candMatches secret sigLower a = true
    · rw [if_pos hm] at h; cases h
    · rw [if_neg hm] at h
      intro x hx
      rcases List.mem_cons.mp hx with rfl | hx2
      · simpa using hm
      · exact ih h x hx2

/-! ## Gate pipeline lemmas -/

/-- `registry.get(id)` right after `registry.set(id, ...)` finds the stored
record. -/
theorem registryUpsert_self (reg : Registry) (id name : String) (nowS : Int) :
    registryUpsert reg id name nowS id = some (upsertRec reg id name nowS) := by
  unfold registryUpsert
  rw [if_pos rfl]

/-- Branch-level form of the register pipeline: rate limit, then missing
signature, then mismatch, then staleness, then the upsert and 200 response. -/
theorem processRegister_eq (limit : Nat) (nowMs : Int) (b : Option Bucket) (reg : Registry)
    (secret raw gotRaw : String) (ts : JsNum) (drift : ℚ) (id name region nowIso : String)
    (nowS : Int) :
    processRegister limit nowMs b reg secret raw gotRaw ts drift id name region nowIso nowS =
      if (rateStep limit nowMs b).1 = false then ⟨.tooMany, (rateStep limit nowMs b).2, reg⟩
      else if jsToLower (jsTrim gotRaw) = "" then
        ⟨.missingSig, (rateStep limit nowMs b).2, reg⟩
      else if jsToLower (jsTrim gotRaw) ≠ sigSHA1 secret raw then
        ⟨.badSig (jsToLower (jsTrim gotRaw)) (sigSHA1 secret raw), (rateStep limit nowMs b).2, reg⟩
      else if withinWindow nowS drift ts = false then
        ⟨.staleTs, (rateStep limit nowMs b).2, reg⟩
      else
        ⟨.okRegister (upsertRec reg id name nowS).name region (upsertRec reg id name nowS).rank
          nowIso, (rateStep limit nowMs b).2, registryUpsert reg id name nowS⟩ := by
  simp only [processRegister]
  split_ifs <;> try rfl
  rw [registryUpsert_self]

/-! ## Claim theorems -/

/-- Whether a response is a signature rejection (missing signature or
signature mismatch). -/
def isSigRejection : Response → Bool
  | .missingSig => true
  | .badSig _ _ => true
  | .badSigPlain => true
  | _ => false

/-- C1: Round-trip verification: for every secret S and body B, verifying B
against the signature computed from (S, B) succeeds.  In the part_000 register
gate, presenting `sigSHA1(S, raw)` never draws a missing-signature or
signature-mismatch rejection, whatever the other request data; in the
server.cjs engine, the digest of the exact payload matches the first (raw)
candidate, so the scan returns that match and `verifySig` never answers
`Bad sig`. -/
theorem C1_roundtrip_verification :
    (∀ (limit : Nat) (nowMs : Int) (b : Option Bucket) (reg : Registry)
        (secret raw : String) (ts : JsNum) (drift : ℚ) (id name region nowIso : String)
        (nowS : Int),
        isSigRejection (processRegister limit nowMs b reg secret raw (sigSHA1 secret raw) ts
          drift id name region nowIso nowS).resp = false)
    ∧ (∀ secret payload : String,
        tryCands secret (jsToLower (jsTrim (sha1Hex (secret ++ "|" ++ payload))))
          (candidates payload) = some payload
        ∧ verifySig secret payload (sha1Hex (secret ++ "|" ++ payload)) ≠ .badSig) := by
  constructor
  · intro limit nowMs b reg secret raw ts drift id name region nowIso nowS
    rw [processRegister_eq, jsTrim_sigSHA1, jsToLower_sigSHA1]
    split_ifs with h1 h2 h3 h4
    · rfl
    · exact absurd h2 (sigSHA1_ne_empty secret raw)
    · exact absurd rfl h3
    · rfl
    · rfl
  · intro secret payload
    have hmatch : candMatches secret (jsToLower (jsTrim (sha1Hex (secret ++ "|" ++ payload))))
        payload = true := by
      unfold candMatches
      rw [jsTrim_sha1Hex, jsToLower_sha1Hex]
      exact beq_self_eq_true _
    have htry : tryCands secret (jsToLower (jsTrim (sha1Hex (secret ++ "|" ++ payload))))
        (candidates payload) = some payload := by
      rw [candidates, tryCands, if_pos hmatch]
    refine ⟨htry, ?_⟩
    have hv : verifySig secret payload (sha1Hex (secret ++ "|" ++ payload)) =
        match parseJson payload with
        | some d => .ok d payload
        | none => .badJson := by
      simp only [verifySig]
      rw [htry]
    rw [hv]
    cases parseJson payload <;> simp

/-- C10: the bulk-lookup endpoint `/api/scan` is read-only with respect to the
registry: whatever the request data and whether any gate check fails or the
lookup succeeds, the registry after the request is the registry before it. -/
theorem C10_scan_readonly :
    ∀ (limit : Nat) (nowMs : Int) (b : Option Bucket) (reg : Registry)
      (secret raw gotRaw : String) (ts : JsNum) (drift : ℚ) (targets : Option (List String))
      (nowS : Int),
      (processScan limit nowMs b reg secret raw gotRaw ts drift targets nowS).registry = reg := by
  intro limit nowMs b reg secret raw gotRaw ts drift targets nowS
  simp only [processScan]
  split_ifs <;> rfl

/-- Whether a `verifySig` outcome is the 401 `Bad sig` rejection. -/
def isBadSig : VerifyResult → Bool
  | .badSig => true
  | _ => false

set_option maxRecDepth 40000 in
/-- C2 (counterexample): in the server.cjs engine the asserted signature is
compared against the FULL 40-character digest of each candidate, so asserting
the 8-character prefix — here exactly `sigSHA1` of the secret and payload — is
rejected with `Bad sig`, against the claim that it is accepted. -/
theorem C2_counterexample :
    isBadSig (verifySig "CHANGEME_SECRET" "hello"
      (sigSHA1 "CHANGEME_SECRET" "hello")) = true := by
  decide

/-- C2 (amended): the part_000 signature is the fixed-width 8-hex-character
lowercase prefix of the digest of `secret + '|' + raw bytes`, and the asserted
signature is trimmed and lower-cased before the comparison, so any
letter-case/whitespace variant of that prefix passes the register gate's
signature check; the server.cjs envelope engine instead accepts an asserted
signature exactly when it equals (after trim and lower-casing) the full
lowercase digest of the matching candidate. -/
theorem C2_signature_scheme :
    (∀ secret raw : String,
        (sigSHA1 secret raw).data = (sha1Hex (secret ++ "|" ++ raw)).data.take 8
        ∧ (sigSHA1 secret raw).length = 8
        ∧ ∀ c ∈ (sigSHA1 secret raw).data, c ∈ hexChars)
    ∧ (∀ (limit : Nat) (nowMs : Int) (b : Option Bucket) (reg : Registry)
        (secret raw gotRaw : String) (ts : JsNum) (drift : ℚ) (id name region nowIso : String)
        (nowS : Int),
        jsToLower (jsTrim gotRaw) = sigSHA1 secret raw →
        isSigRejection (processRegister limit nowMs b reg secret raw gotRaw ts drift id name
          region nowIso nowS).resp = false)
    ∧ (∀ secret payload sigLower c : String,
        tryCands secret sigLower (candidates payload) = some c →
        sigLower = jsToLower (sha1Hex (secret ++ "|" ++ c))) := by
  refine ⟨?_, ?_, ?_⟩
  · intro secret raw
    exact ⟨rfl, sigSHA1_length secret raw, sigSHA1_all_hex secret raw⟩
  · intro limit nowMs b reg secret raw gotRaw ts drift id name region nowIso nowS hgot
    rw [processRegister_eq, hgot]
    split_ifs with h1 h2 h3 h4
    · rfl
    · exact absurd h2 (sigSHA1_ne_empty secret raw)
    · exact absurd rfl h3
    · rfl
    · rfl
  · intro secret payload sigLower c h
    obtain ⟨pre, suf, _, _, h3⟩ := tryCands_eq_some _ _ h
    unfold candMatches at h3
    exact (eq_of_beq h3).symm

set_option maxRecDepth 40000 in
/-- C2 (witness): concrete instances of the amended statement: the uppercase,
whitespace-wrapped 8-character prefix passes the part_000 gate, and a full
40-character digest assertion that matches is exactly the lowercase digest of
the matched candidate. -/
theorem C2_signature_scheme_witness :
    isSigRejection (processRegister 10 0 none (fun _ => none) "CHANGEME_SECRET" "hello"
      "  824F93CF " none 60 "i" "n" "r" "t" 0).resp = false
    ∧ "b0fd25ed5f1a9a7c9fb809aed72bdacec9b43616" = jsToLower (sha1Hex ("k" ++ "|" ++ "hi")) :=
  ⟨C2_signature_scheme.2.1 10 0 none (fun _ => none) "CHANGEME_SECRET" "hello" "  824F93CF "
      none 60 "i" "n" "r" "t" 0 (by decide),
   C2_signature_scheme.2.2 "k" "hi" "b0fd25ed5f1a9a7c9fb809aed72bdacec9b43616" "hi" (by decide)⟩

/-- C3: the server.cjs engine checks the ordered candidate-encoding list —
raw bytes first, then canonical JSON, then the fixed lenient variants — stops
at the first digest match, and the parsed form of that matching candidate
becomes the trusted payload; when it answers `Bad sig`, no candidate matched. -/
theorem C3_candidate_encodings :
    (∀ (secret payload sig : String) (d : JsVal) (c : String),
        verifySig secret payload sig = .ok d c →
        ∃ pre suf, candidates payload = pre ++ c :: suf
          ∧ (∀ x ∈ pre, candMatches secret (jsToLower (jsTrim sig)) x = false)
          ∧ candMatches secret (jsToLower (jsTrim sig)) c = true
          ∧ parseJson c = some d)
    ∧ (∀ secret payload sig : String,
        verifySig secret payload sig = .badSig →
        ∀ x ∈ candidates payload, candMatches secret (jsToLower (jsTrim sig)) x = false) := by
  constructor
  · intro secret payload sig d c h
    simp only [verifySig] at h
    rcases htry : tryCands secret (jsToLower (jsTrim sig)) (candidates payload) with _ | c2
    · rw [htry] at h; cases h
    · rw [htry] at h
      rcases hp : parseJson c2 with _ | d2
      · simp only [hp] at h
        cases h
      · simp only [hp] at h
        injection h with h1 h2
        subst h1; subst h2
        obtain ⟨pre, suf, g1, g2, g3⟩ := tryCands_eq_some _ _ htry
        exact ⟨pre, suf, g1, g2, g3, hp⟩
  · intro secret payload sig h
    simp only [verifySig] at h
    rcases htry : tryCands secret (jsToLower (jsTrim sig)) (candidates payload) with _ | c2
    · exact tryCands_eq_none _ _ htry
    · rw [htry] at h
      rcases hp : parseJson c2 with _ | d2 <;> simp only [hp] at h <;> cases h

set_option maxRecDepth 40000 in
/-- C3 (witness): a concrete accepted request — the raw candidate `"{}"`
matches the asserted full digest, no earlier candidate exists, and its parsed
form (the empty object) is the trusted payload. -/
theorem C3_candidate_encodings_witness :
    ∃ pre suf, candidates "{}" = pre ++ "{}" :: suf
      ∧ (∀ x ∈ pre,
          candMatches "k" (jsToLower (jsTrim "9ca0416ac516b5bd01f169020c860804e32b67bb")) x
            = false)
      ∧ candMatches "k" (jsToLower (jsTrim "9ca0416ac516b5bd01f169020c860804e32b67bb")) "{}"
          = true
      ∧ parseJson "{}" = some (.obj []) :=
  C3_candidate_encodings.1 "k" "{}" "9ca0416ac516b5bd01f169020c860804e32b67bb" (.obj []) "{}"
    rfl

/-- C4 (counterexample): `withinWindow` admits finite NON-integer claims: the
claim 1000.5 at `now = 1000` with tolerance 60 passes (`Number.isFinite` holds
of any finite JS number), though the claim as stated — pass only finite
integers within tolerance — demands rejection. -/
theorem C4_counterexample :
    withinWindow 1000 60 (some (mkRat 2001 2)) = true ∧ (mkRat 2001 2).den ≠ 1 := by
  constructor
  · simp only [withinWindow]
    rw [decide_eq_true_eq, Rat.mkRat_eq_div, abs_le]
    constructor <;> norm_num
  · decide

/-- C4 (amended): the freshness check passes iff the claim is a finite number
(integral or not) with `|now − claim| ≤ tolerance`; the boundary is inclusive
(`now` and `now ± tolerance` pass, `now ± (tolerance + 1)` fail), and a
missing or non-numeric claim — `Number(...)` gives NaN — is rejected. -/
theorem C4_freshness :
    (∀ (nowS : Int) (drift : ℚ) (ts : JsNum),
        withinWindow nowS drift ts = true ↔ ∃ t : ℚ, ts = some t ∧ |(nowS : ℚ) - t| ≤ drift)
    ∧ (∀ (nowS : Int) (drift : ℚ), 0 ≤ drift →
        withinWindow nowS drift (some (nowS : ℚ)) = true
        ∧ withinWindow nowS drift (some ((nowS : ℚ) + drift)) = true
        ∧ withinWindow nowS drift (some ((nowS : ℚ) - drift)) = true
        ∧ withinWindow nowS drift (some ((nowS : ℚ) + drift + 1)) = false
        ∧ withinWindow nowS drift (some ((nowS : ℚ) - drift - 1)) = false)
    ∧ (∀ (nowS : Int) (drift : ℚ), withinWindow nowS drift none = false) := by
  refine ⟨?_, ?_, ?_⟩
  · intro nowS drift ts
    cases ts with
    | none => simp [withinWindow]
    | some t => simp [withinWindow]
  · intro nowS drift h
    refine ⟨?_, ?_, ?_, ?_, ?_⟩ <;> simp only [withinWindow]
    · rw [decide_eq_true_eq]
      simpa using h
    · rw [decide_eq_true_eq]
      have he : (nowS : ℚ) - ((nowS : ℚ) + drift) = -drift := by ring
      rw [he, abs_neg, abs_of_nonneg h]
    · rw [decide_eq_true_eq]
      have he : (nowS : ℚ) - ((nowS : ℚ) - drift) = drift := by ring
      rw [he, abs_of_nonneg h]
    · rw [decide_eq_false_iff_not]
      have he : (nowS : ℚ) - ((nowS : ℚ) + drift + 1) = -(drift + 1) := by ring
      rw [he, abs_neg, abs_of_nonneg (by linarith)]
      linarith
    · rw [decide_eq_false_iff_not]
      have he : (nowS : ℚ) - ((nowS : ℚ) - drift - 1) = drift + 1 := by ring
      rw [he, abs_of_nonneg (by linarith)]
      linarith
  · intro nowS drift
    rfl

/-- C4 (witness): the inclusive boundary at tolerance 60 from `now = 0`: the
claims 60 and −60 pass, 61 fails. -/
theorem C4_freshness_witness :
    withinWindow 0 60 (some 60) = true ∧ withinWindow 0 60 (some (-60)) = true
    ∧ withinWindow 0 60 (some 61) = false := by
  have h := C4_freshness.2.1 0 60 (by norm_num)
  refine ⟨?_, ?_, ?_⟩
  · have := h.2.1
    norm_num at this
    simpa using this
  · have := h.2.2.1
    norm_num at this
    simpa using this
  · have := h.2.2.2.1
    norm_num at this
    simpa using this

/-- Within one window, successive calls at one instant count up from the
stored counter: the 0-based call `i` is admitted iff `c + i + 1 ≤ limit`. -/
theorem rateRun_steady (limit : Nat) (t : Int) :
    ∀ (n c : Nat), rateRun limit (some ⟨c, t⟩) (List.replicate n t) =
      (List.range n).map (fun i => decide (c + i + 1 ≤ limit)) := by
  intro n
  induction n with
  | zero => intro c; rfl
  | succ m ih =>
    intro c
    have hcond : ¬ (t - t > 60000) := by omega
    have hstep : rateStep limit t (some ⟨c, t⟩) = (decide (c + 1 ≤ limit), some ⟨c + 1, t⟩) := by
      simp only [rateStep]
      rw [if_neg hcond]
    rw [List.replicate_succ]
    have hrun : rateRun limit (some ⟨c, t⟩) (t :: List.replicate m t)
        = decide (c + 1 ≤ limit) :: rateRun limit (some ⟨c + 1, t⟩) (List.replicate m t) := by
      simp only [rateRun, hstep]
    rw [hrun, ih (c + 1), List.range_succ_eq_map, List.map_cons, List.map_map]
    refine congrArg₂ List.cons ?_ ?_
    · show decide (c + 1 ≤ limit) = decide (c + 0 + 1 ≤ limit)
      exact decide_eq_decide.mpr (by omega)
    · refine List.map_congr_left (fun i _ => ?_)
      show decide (c + 1 + i + 1 ≤ limit) = decide (c + (i + 1) + 1 ≤ limit)
      exact decide_eq_decide.mpr (by omega)

/-- C5: rate limiter: from a fresh source, exactly `limit` calls within one
window are admitted and the `(limit+1)`-th is rejected; a rejected call still
increments the stored per-source counter; and once `now − last` exceeds the
60 000 ms window the counter is reset (the stored count becomes the fresh
increment 1, the window start becomes `now`) and admission resumes. -/
theorem C5_rate_limiter :
    (∀ (limit : Nat) (t : Int), 1 ≤ limit →
        rateRun limit none (List.replicate (limit + 1) t) =
          List.replicate limit true ++ [false])
    ∧ (∀ (limit : Nat) (nowMs last : Int) (c : Nat),
        nowMs - last ≤ 60000 → limit < c + 1 →
        rateStep limit nowMs (some ⟨c, last⟩) = (false, some ⟨c + 1, last⟩))
    ∧ (∀ (limit : Nat) (nowMs last : Int) (c : Nat), 1 ≤ limit → 60000 < nowMs - last →
        rateStep limit nowMs (some ⟨c, last⟩) = (true, some ⟨1, nowMs⟩)) := by
  refine ⟨?_, ?_, ?_⟩
  · intro limit t hlim
    obtain ⟨m, rfl⟩ : ∃ m, limit = m + 1 := ⟨limit - 1, by omega⟩
    have hpos : (1 : Nat) ≤ m + 1 := by omega
    have hfirst : rateStep (m + 1) t none = (true, some ⟨1, t⟩) := by
      simp only [rateStep]
      rw [if_pos hpos]
    rw [List.replicate_succ]
    have hrun : rateRun (m + 1) none (t :: List.replicate (m + 1) t)
        = true :: rateRun (m + 1) (some ⟨1, t⟩) (List.replicate (m + 1) t) := by
      simp only [rateRun, hfirst]
    rw [hrun, rateRun_steady (m + 1) t (m + 1) 1, List.range_succ, List.map_append]
    have h1 : (List.range m).map (fun i => decide (1 + i + 1 ≤ m + 1)) =
        List.replicate m true := by
      apply List.eq_replicate_iff.mpr
      refine ⟨by simp, ?_⟩
      intro b hb
      obtain ⟨i, hi, rfl⟩ := List.mem_map.mp hb
      have : i < m := List.mem_range.mp hi
      exact decide_eq_true (by omega)
    have h2 : List.map (fun i => decide (1 + i + 1 ≤ m + 1)) [m] = [false] := by
      simp only [List.map_cons, List.map_nil]
      congr 1
      exact decide_eq_false (by omega)
    rw [h1, h2, List.replicate_succ, List.cons_append]
  · intro limit nowMs last c h1 h2
    have hcond : ¬ (nowMs - last > 60000) := by omega
    simp only [rateStep]
    rw [if_neg hcond]
    simp only [Prod.mk.injEq]
    exact ⟨decide_eq_false (by omega), trivial⟩
  · intro limit nowMs last c hlim hwin
    have hcond : nowMs - last > 60000 := by omega
    simp only [rateStep]
    rw [if_pos hcond]
    simp only [Prod.mk.injEq]
    exact ⟨decide_eq_true (by omega), trivial⟩

/-- C5 (witness): limit 2: of three calls at one instant the third is
rejected; a rejection at count 2 stores count 3; after 70 001 ms the counter
holds the fresh increment 1 with the new window start and the call passes. -/
theorem C5_rate_limiter_witness :
    rateRun 2 none (List.replicate 3 0) = List.replicate 2 true ++ [false]
    ∧ rateStep 2 5 (some ⟨2, 0⟩) = (false, some ⟨3, 0⟩)
    ∧ rateStep 2 70001 (some ⟨2, 0⟩) = (true, some ⟨1, 70001⟩) :=
  ⟨C5_rate_limiter.1 2 0 (by decide),
   C5_rate_limiter.2.1 2 5 0 2 (by decide) (by decide),
   C5_rate_limiter.2.2 2 70001 0 2 (by decide) (by decide)⟩

/-- Upsert of an absent subject creates the record with both timestamps at
`nowS` and the classification lookup. -/
theorem upsert_absent (reg : Registry) (id name : String) (nowS : Int) (h : reg id = none) :
    registryUpsert reg id name nowS id =
      some ⟨if name = "" then "(unknown)" else name, DEFAULT_MC, lookupRankFor id,
        nowS, nowS⟩ := by
  rw [registryUpsert_self]
  simp only [upsertRec, h]

/-- Upsert of a present subject refreshes the name (when non-empty) and
`last_seen`, keeping `first_seen`, mc and rank. -/
theorem upsert_present (reg : Registry) (id name : String) (nowS : Int) (r : RegRec)
    (h : reg id = some r) :
    registryUpsert reg id name nowS id =
      some ⟨if name = "" then r.name else name, r.mc, r.rank, r.first_seen, nowS⟩ := by
  rw [registryUpsert_self]
  simp only [upsertRec, h]

/-- C6: registry upsert: an absent subject is created with
`first_seen = last_seen = now` and the pluggable classification; a present one
keeps `first_seen`, mc and classification, refreshes `last_seen`, and takes
the new name only when it is non-empty; registering twice leaves `first_seen`
at the first time and moves `last_seen` to the second; an empty name keeps
the stored name. -/
theorem C6_registry_upsert :
    (∀ (reg : Registry) (id name : String) (nowS : Int), reg id = none →
        registryUpsert reg id name nowS id =
          some ⟨if name = "" then "(unknown)" else name, DEFAULT_MC, lookupRankFor id,
            nowS, nowS⟩)
    ∧ (∀ (reg : Registry) (id name : String) (nowS : Int) (r : RegRec), reg id = some r →
        registryUpsert reg id name nowS id =
          some ⟨if name = "" then r.name else name, r.mc, r.rank, r.first_seen, nowS⟩)
    ∧ (∀ (reg : Registry) (id n1 n2 : String) (t1 t2 : Int), reg id = none →
        (registryUpsert (registryUpsert reg id n1 t1) id n2 t2 id).map RegRec.first_seen
            = some t1
        ∧ (registryUpsert (registryUpsert reg id n1 t1) id n2 t2 id).map RegRec.last_seen
            = some t2)
    ∧ (∀ (reg : Registry) (id : String) (nowS : Int) (r : RegRec), reg id = some r →
        (registryUpsert reg id "" nowS id).map RegRec.name = some r.name) := by
  refine ⟨upsert_absent, upsert_present, ?_, ?_⟩
  · intro reg id n1 n2 t1 t2 h
    have e1 := upsert_absent reg id n1 t1 h
    have e2 := upsert_present (registryUpsert reg id n1 t1) id n2 t2 _ e1
    rw [e2]
    exact ⟨rfl, rfl⟩
  · intro reg id nowS r h
    rw [upsert_present reg id "" nowS r h]
    simp

/-- C6 (witness): registering "a" as "Rex" at time 5 then again at time 9:
`first_seen` stays 5 and `last_seen` becomes 9; re-registering with the empty
name keeps "Rex". -/
theorem C6_registry_upsert_witness :
    registryUpsert (fun _ => none) "a" "Rex" 5 "a" =
      some ⟨"Rex", DEFAULT_MC, lookupRankFor "a", 5, 5⟩
    ∧ ((registryUpsert (registryUpsert (fun _ => none) "a" "Rex" 5) "a" "Bob" 9) "a").map
        RegRec.first_seen = some 5
    ∧ ((registryUpsert (registryUpsert (fun _ => none) "a" "Rex" 5) "a" "" 9) "a").map
        RegRec.name = some "Rex" := by
  refine ⟨?_, ?_, ?_⟩
  · have := C6_registry_upsert.1 (fun _ => none) "a" "Rex" 5 rfl
    simpa using this
  · exact (C6_registry_upsert.2.2.1 (fun _ => none) "a" "Rex" "Bob" 5 9 rfl).1
  · have := C6_registry_upsert.2.2.2 (registryUpsert (fun _ => none) "a" "Rex" 5) "a" 9
      ⟨"Rex", DEFAULT_MC, lookupRankFor "a", 5, 5⟩
      (C6_registry_upsert.1 (fun _ => none) "a" "Rex" 5 rfl |>.trans (by simp))
    simpa using this

/-- C7: bulk lookup: a non-array input normalizes to the empty result list;
the result has one entry per retained input id (the input truncated at the
cap, never rejected whole); entry `i` is the lookup of input id `i` (order
preserved); unknown ids give the `(unknown)` sentinel with age 0; known ids
give the stored name, mc and rank with the age in whole days since
`first_seen`. -/
theorem C7_bulk_lookup :
    (∀ (reg : Registry) (nowS : Int) (cap : Nat), scanResults reg nowS cap none = [])
    ∧ (∀ (reg : Registry) (nowS : Int) (cap : Nat) (ids : List String),
        (scanResults reg nowS cap (some ids)).length = min ids.length cap)
    ∧ (∀ (reg : Registry) (nowS : Int) (cap : Nat) (ids : List String) (i : Nat), i < cap →
        (scanResults reg nowS cap (some ids))[i]? = (ids[i]?).map (scanOne reg nowS))
    ∧ (∀ (reg : Registry) (nowS : Int) (id : String), reg id = none →
        scanOne reg nowS id = ⟨id, "(unknown)", "(unknown)", "(unknown)", 0⟩)
    ∧ (∀ (reg : Registry) (nowS : Int) (id : String) (r : RegRec), reg id = some r →
        0 < r.first_seen → r.first_seen ≤ nowS →
        scanOne reg nowS id = ⟨id, r.name, r.mc, r.rank, (nowS - r.first_seen).fdiv 86400⟩) := by
  refine ⟨?_, ?_, ?_, ?_, ?_⟩
  · intro reg nowS cap
    simp [scanResults]
  · intro reg nowS cap ids
    simp [scanResults, Nat.min_comm]
  · intro reg nowS cap ids i hi
    simp only [scanResults, Option.getD_some, List.getElem?_map]
    rw [List.getElem?_take_of_lt hi]
  · intro reg nowS id h
    simp [scanOne, h]
  · intro reg nowS id r h h0 hle
    simp only [scanOne, h]
    rw [if_neg (by omega)]
    have hnn : 0 ≤ (nowS - r.first_seen).fdiv 86400 :=
      Int.fdiv_nonneg (by omega) (by norm_num)
    rw [max_eq_right hnn]

/-- C7 (witness): scanning `["a", "zz"]` against a registry knowing only "a"
(first seen at 172800, i.e. day 2) at time 432000 (day 5): non-arrays give
`[]`, the known id yields its record with age 3 days, the unknown id the
sentinel. -/
theorem C7_bulk_lookup_witness :
    scanResults (fun k => if k = "a" then some ⟨"Rex", "MC Grid Wide", "Prospect", 172800, 5⟩
        else none) 432000 20 none = []
    ∧ scanOne (fun k => if k = "a" then some ⟨"Rex", "MC Grid Wide", "Prospect", 172800, 5⟩
        else none) 432000 "a" = ⟨"a", "Rex", "MC Grid Wide", "Prospect",
          ((432000 : Int) - 172800).fdiv 86400⟩
    ∧ scanOne (fun k => if k = "a" then some ⟨"Rex", "MC Grid Wide", "Prospect", 172800, 5⟩
        else none) 432000 "zz" = ⟨"zz", "(unknown)", "(unknown)", "(unknown)", 0⟩ := by
  refine ⟨?_, ?_, ?_⟩
  · exact C7_bulk_lookup.1 _ 432000 20
  · exact C7_bulk_lookup.2.2.2.2 _ 432000 "a" ⟨"Rex", "MC Grid Wide", "Prospect", 172800, 5⟩
      (by simp) (by decide) (by decide)
  · exact C7_bulk_lookup.2.2.2.1 _ 432000 "zz" (by simp)

/-- Projection of a gate result literal. -/
theorem resp_mk (r : Response) (b : Option Bucket) (g : Registry) :
    (GateResult.mk r b g).resp = r := rfl

/-- C8: gate order and atomicity: the checks run in the fixed order rate
limit, signature (missing, then mismatch), freshness, then the registry
upsert; each failure short-circuits to its error response with the registry
untouched.  A stale timestamp is rejected with the registry untouched
regardless of the asserted signature, and a mismatched signature draws the
same rejection whatever the timestamp (the timestamp is never examined). -/
theorem C8_gate_order :
    (∀ (limit : Nat) (nowMs : Int) (b : Option Bucket) (reg : Registry)
        (secret raw gotRaw : String) (ts : JsNum) (drift : ℚ) (id name region nowIso : String)
        (nowS : Int),
        (rateStep limit nowMs b).1 = false →
        processRegister limit nowMs b reg secret raw gotRaw ts drift id name region nowIso nowS
          = ⟨.tooMany, (rateStep limit nowMs b).2, reg⟩)
    ∧ (∀ (limit : Nat) (nowMs : Int) (b : Option Bucket) (reg : Registry)
        (secret raw gotRaw : String) (ts : JsNum) (drift : ℚ) (id name region nowIso : String)
        (nowS : Int),
        (rateStep limit nowMs b).1 = true →
        jsToLower (jsTrim gotRaw) = "" →
        processRegister limit nowMs b reg secret raw gotRaw ts drift id name region nowIso nowS
          = ⟨.missingSig, (rateStep limit nowMs b).2, reg⟩)
    ∧ (∀ (limit : Nat) (nowMs : Int) (b : Option Bucket) (reg : Registry)
        (secret raw gotRaw : String) (ts : JsNum) (drift : ℚ) (id name region nowIso : String)
        (nowS : Int),
        (rateStep limit nowMs b).1 = true →
        jsToLower (jsTrim gotRaw) ≠ "" →
        jsToLower (jsTrim gotRaw) ≠ sigSHA1 secret raw →
        processRegister limit nowMs b reg secret raw gotRaw ts drift id name region nowIso nowS
          = ⟨.badSig (jsToLower (jsTrim gotRaw)) (sigSHA1 secret raw),
              (rateStep limit nowMs b).2, reg⟩)
    ∧ (∀ (limit : Nat) (nowMs : Int) (b : Option Bucket) (reg : Registry)
        (secret raw gotRaw : String) (ts : JsNum) (drift : ℚ) (id name region nowIso : String)
        (nowS : Int),
        withinWindow nowS drift ts = false →
        isErrorResp (processRegister limit nowMs b reg secret raw gotRaw ts drift id name
          region nowIso nowS).resp = true
        ∧ (processRegister limit nowMs b reg secret raw gotRaw ts drift id name region nowIso
            nowS).registry = reg)
    ∧ (∀ (limit : Nat) (nowMs : Int) (b : Option Bucket) (reg : Registry)
        (secret raw gotRaw : String) (ts : JsNum) (drift : ℚ) (id name region nowIso : String)
        (nowS : Int),
        (rateStep limit nowMs b).1 = true →
        jsToLower (jsTrim gotRaw) = sigSHA1 secret raw →
        withinWindow nowS drift ts = true →
        processRegister limit nowMs b reg secret raw gotRaw ts drift id name region nowIso nowS
          = ⟨.okRegister (upsertRec reg id name nowS).name region
              (upsertRec reg id name nowS).rank nowIso, (rateStep limit nowMs b).2,
              registryUpsert reg id name nowS⟩) := by
  refine ⟨?_, ?_, ?_, ?_, ?_⟩
  · intro limit nowMs b reg secret raw gotRaw ts drift id name region nowIso nowS h
    rw [processRegister_eq, if_pos h]
  · intro limit nowMs b reg secret raw gotRaw ts drift id name region nowIso nowS hrate hgot
    have h1 : ¬ ((rateStep limit nowMs b).1 = false) := by simp [hrate]
    rw [processRegister_eq, if_neg h1, if_pos hgot]
  · intro limit nowMs b reg secret raw gotRaw ts drift id name region nowIso nowS hrate hne hmm
    have h1 : ¬ ((rateStep limit nowMs b).1 = false) := by simp [hrate]
    rw [processRegister_eq, if_neg h1, if_neg hne, if_pos hmm]
  · intro limit nowMs b reg secret raw gotRaw ts drift id name region nowIso nowS hts
    rw [processRegister_eq]
    by_cases h1 : (rateStep limit nowMs b).1 = false
    · rw [if_pos h1]; exact ⟨rfl, rfl⟩
    · rw [if_neg h1]
      by_cases h2 : jsToLower (jsTrim gotRaw) = ""
      · rw [if_pos h2]; exact ⟨rfl, rfl⟩
      · rw [if_neg h2]
        by_cases h3 : jsToLower (jsTrim gotRaw) ≠ sigSHA1 secret raw
        · rw [if_pos h3]; exact ⟨rfl, rfl⟩
        · rw [if_neg h3, if_pos hts]; exact ⟨rfl, rfl⟩
  · intro limit nowMs b reg secret raw gotRaw ts drift id name region nowIso nowS hrate hgot
      hfresh
    have h1 : ¬ ((rateStep limit nowMs b).1 = false) := by simp [hrate]
    have h2 : ¬ (jsToLower (jsTrim gotRaw) = "") := by
      rw [hgot]; exact sigSHA1_ne_empty secret raw
    have h3 : ¬ (jsToLower (jsTrim gotRaw) ≠ sigSHA1 secret raw) := by simp [hgot]
    have h4 : ¬ (withinWindow nowS drift ts = false) := by simp [hfresh]
    rw [processRegister_eq, if_neg h1, if_neg h2, if_neg h3, if_neg h4]

set_option maxRecDepth 40000 in
/-- C8 (witness): with a valid signature for `CHANGEME_SECRET`/`hello` and a
missing timestamp the request is rejected and the registry is untouched; with
a fresh timestamp the gate reaches the business operation and performs the
upsert. -/
theorem C8_gate_order_witness :
    (isErrorResp (processRegister 10 0 none (fun _ => none) "CHANGEME_SECRET" "hello"
        "824f93cf" none 60 "i" "n" "r" "t" 0).resp = true
      ∧ (processRegister 10 0 none (fun _ => none) "CHANGEME_SECRET" "hello" "824f93cf"
          none 60 "i" "n" "r" "t" 0).registry = (fun _ => none))
    ∧ processRegister 10 0 none (fun _ => none) "CHANGEME_SECRET" "hello" "824f93cf"
        (some 0) 60 "a" "Rex" "r" "t" 0
      = ⟨.okRegister (upsertRec (fun _ => none) "a" "Rex" 0).name "r"
          (upsertRec (fun _ => none) "a" "Rex" 0).rank "t", (rateStep 10 0 none).2,
          registryUpsert (fun _ => none) "a" "Rex" 0⟩ := by
  constructor
  · exact C8_gate_order.2.2.2.1 10 0 none (fun _ => none) "CHANGEME_SECRET" "hello"
      "824f93cf" none 60 "i" "n" "r" "t" 0 rfl
  · exact C8_gate_order.2.2.2.2 10 0 none (fun _ => none) "CHANGEME_SECRET" "hello"
      "824f93cf" (some 0) 60 "a" "Rex" "r" "t" 0 (by decide) (by decide)
      (by simp [withinWindow])

set_option maxRecDepth 40000 in
/-- C9 (counterexample): two runs differing only in the secret ("a" vs "b"),
with the asserted signature valid under "b" only and a stale timestamp: both
requests are rejected, yet one rejection is the signature mismatch and the
other the stale timestamp, so the error responses differ beyond the signature
fields — the claim's blanket "identical except in those signature fields" is
false. -/
theorem C9_counterexample :
    isErrorResp (processRegister 10 0 none (fun _ => none) "a" "x" (sigSHA1 "b" "x")
      none 60 "i" "n" "r" "t" 0).resp = true
    ∧ isErrorResp (processRegister 10 0 none (fun _ => none) "b" "x" (sigSHA1 "b" "x")
      none 60 "i" "n" "r" "t" 0).resp = true
    ∧ eraseSigFields (processRegister 10 0 none (fun _ => none) "a" "x" (sigSHA1 "b" "x")
        none 60 "i" "n" "r" "t" 0).resp
      ≠ eraseSigFields (processRegister 10 0 none (fun _ => none) "b" "x" (sigSHA1 "b" "x")
        none 60 "i" "n" "r" "t" 0).resp := by
  refine ⟨?_, ?_, ?_⟩ <;> decide

/-- C9 (amended): error responses never carry secret-derived data beyond the
computed signature prefix: two runs differing only in the secret that are both
rejected with the signature mismatch produce the same received-signature field
and each carries exactly its own 8-character computed prefix; and two such
runs that neither reject with a signature mismatch behave identically
(response, stored bucket and registry), since every other branch of the gate
is independent of the secret. -/
theorem C9_secret_nondisclosure :
    (∀ (limit : Nat) (nowMs : Int) (b : Option Bucket) (reg : Registry)
        (s1 s2 raw gotRaw : String) (ts : JsNum) (drift : ℚ) (id name region nowIso : String)
        (nowS : Int) (g1 e1 g2 e2 : String),
        (processRegister limit nowMs b reg s1 raw gotRaw ts drift id name region nowIso
          nowS).resp = .badSig g1 e1 →
        (processRegister limit nowMs b reg s2 raw gotRaw ts drift id name region nowIso
          nowS).resp = .badSig g2 e2 →
        g1 = g2 ∧ e1 = sigSHA1 s1 raw ∧ e2 = sigSHA1 s2 raw)
    ∧ (∀ (limit : Nat) (nowMs : Int) (b : Option Bucket) (reg : Registry)
        (s1 s2 raw gotRaw : String) (ts : JsNum) (drift : ℚ) (id name region nowIso : String)
        (nowS : Int),
        (∀ g e, (processRegister limit nowMs b reg s1 raw gotRaw ts drift id name region
          nowIso nowS).resp ≠ .badSig g e) →
        (∀ g e, (processRegister limit nowMs b reg s2 raw gotRaw ts drift id name region
          nowIso nowS).resp ≠ .badSig g e) →
        processRegister limit nowMs b reg s1 raw gotRaw ts drift id name region nowIso nowS
          = processRegister limit nowMs b reg s2 raw gotRaw ts drift id name region nowIso
            nowS) := by
  constructor
  · intro limit nowMs b reg s1 s2 raw gotRaw ts drift id name region nowIso nowS g1 e1 g2 e2
      h1 h2
    rw [processRegister_eq] at h1 h2
    by_cases hr : (rateStep limit nowMs b).1 = false
    · rw [if_pos hr, resp_mk] at h1
      cases h1
    rw [if_neg hr] at h1 h2
    by_cases hg : jsToLower (jsTrim gotRaw) = ""
    · rw [if_pos hg, resp_mk] at h1
      cases h1
    rw [if_neg hg] at h1 h2
    by_cases hb1 : jsToLower (jsTrim gotRaw) ≠ sigSHA1 s1 raw
    · rw [if_pos hb1, resp_mk] at h1
      by_cases hb2 : jsToLower (jsTrim gotRaw) ≠ sigSHA1 s2 raw
      · rw [if_pos hb2, resp_mk] at h2
        injection h1 with i1 i2
        injection h2 with j1 j2
        exact ⟨i1.symm.trans j1, i2.symm, j2.symm⟩
      · rw [if_neg hb2] at h2
        by_cases hw : withinWindow nowS drift ts = false
        · rw [if_pos hw, resp_mk] at h2
          cases h2
        · rw [if_neg hw, resp_mk] at h2
          cases h2
    · rw [if_neg hb1] at h1
      by_cases hw : withinWindow nowS drift ts = false
      · rw [if_pos hw, resp_mk] at h1
        cases h1
      · rw [if_neg hw, resp_mk] at h1
        cases h1
  · intro limit nowMs b reg s1 s2 raw gotRaw ts drift id name region nowIso nowS h1 h2
    by_cases hb1 : jsToLower (jsTrim gotRaw) ≠ sigSHA1 s1 raw
    case pos =>
      by_cases hr : (rateStep limit nowMs b).1 = false
      · rw [processRegister_eq, processRegister_eq, if_pos hr, if_pos hr]
      by_cases hg : jsToLower (jsTrim gotRaw) = ""
      · rw [processRegister_eq, processRegister_eq, if_neg hr, if_neg hr, if_pos hg, if_pos hg]
      exfalso
      apply h1 (jsToLower (jsTrim gotRaw)) (sigSHA1 s1 raw)
      rw [processRegister_eq, if_neg hr, if_neg hg, if_pos hb1, resp_mk]
    case neg =>
      by_cases hb2 : jsToLower (jsTrim gotRaw) ≠ sigSHA1 s2 raw
      case pos =>
        by_cases hr : (rateStep limit nowMs b).1 = false
        · rw [processRegister_eq, processRegister_eq, if_pos hr, if_pos hr]
        by_cases hg : jsToLower (jsTrim gotRaw) = ""
        · rw [processRegister_eq, processRegister_eq, if_neg hr, if_neg hr, if_pos hg,
            if_pos hg]
        exfalso
        apply h2 (jsToLower (jsTrim gotRaw)) (sigSHA1 s2 raw)
        rw [processRegister_eq, if_neg hr, if_neg hg, if_pos hb2, resp_mk]
      case neg =>
        rw [processRegister_eq, processRegister_eq]
        by_cases hr : (rateStep limit nowMs b).1 = false
        · rw [if_pos hr, if_pos hr]
        rw [if_neg hr, if_neg hr]
        by_cases hg : jsToLower (jsTrim gotRaw) = ""
        · rw [if_pos hg, if_pos hg]
        rw [if_neg hg, if_neg hg, if_neg hb1, if_neg hb2]

set_option maxRecDepth 40000 in
/-- C9 (witness): with the unmatchable asserted signature `zz` both runs
reject with `Bad sig` carrying the same received field and their own computed
prefixes; with a missing signature neither run rejects with `Bad sig` and the
full outcomes coincide. -/
theorem C9_secret_nondisclosure_witness :
    ("zz" = "zz" ∧ sigSHA1 "a" "x" = sigSHA1 "a" "x" ∧ sigSHA1 "b" "x" = sigSHA1 "b" "x")
    ∧ processRegister 10 0 none (fun _ => none) "a" "x" "" none 60 "i" "n" "r" "t" 0
      = processRegister 10 0 none (fun _ => none) "b" "x" "" none 60 "i" "n" "r" "t" 0 := by
  constructor
  · exact C9_secret_nondisclosure.1 10 0 none (fun _ => none) "a" "b" "x" "zz" none 60
      "i" "n" "r" "t" 0 "zz" (sigSHA1 "a" "x") "zz" (sigSHA1 "b" "x") (by decide) (by decide)
  · apply C9_secret_nondisclosure.2
    · intro g e hcon
      rw [(by decide : (processRegister 10 0 none (fun _ => none) "a" "x" "" none 60 "i" "n"
        "r" "t" 0).resp = Response.missingSig)] at hcon
      cases hcon
    · intro g e hcon
      rw [(by decide : (processRegister 10 0 none (fun _ => none) "b" "x" "" none 60 "i" "n"
        "r" "t" 0).resp = Response.missingSig)] at hcon
      cases hcon

end MCGrid
